import Mathlib

/-!
Shallow embedding of the bidirectional streaming session controller of the
voice-agent server (src/server/src/voice_agent_server), together with proofs
about its behaviour.

Conventions of the embedding:
* Python dicts crossing the wire are structures with the fields the code
  reads; a `.get` that may miss is an `Option`.
* 16-bit PCM samples are `Int`; floating-point samples are `ℚ` (every value
  `n / 32768` with `n` an int16 is exactly representable in binary floating
  point, so `ℚ` is a faithful model of the float arithmetic used here).
* base64 decoding is an abstract parameter `b64decode : String → Option (List Int)`;
  `none` models a raised decoding exception.
* `async` methods become pure state-passing functions returning the new
  session state together with the list of frames written to the websocket,
  in emission order.
-/

namespace VoiceAgent

/-- Conversation item as read by the server: a dict with a `role` field
(read via `.get`, hence optional) and a `content` field. -/
structure Item where
  role : Option String
  content : String
  deriving Repr, DecidableEq

/-- Inbound wire message, with the fields the handlers read: `type`,
`inputs`, `reset_agent`, `delta`. -/
structure InMessage where
  type : String
  inputs : List Item
  reset_agent : Bool
  delta : String
  deriving Repr, DecidableEq

/-- Outbound wire frames as serialized by the helpers:
`history.updated` (with optional `reason`, full `inputs`, `agent_name`,
optional `sync: true`), `response.audio.delta` (payload plus the fixed
placeholder correlation fields), and `audio.done`. -/
inductive Frame where
  | historyUpdated (reason : Option String) (inputs : List Item)
      (agent_name : String) (sync : Bool)
  | audioDelta (delta : List ℚ) (output_index content_index : Nat)
      (item_id response_id event_id : String)
  | audioDone
  deriving Repr, DecidableEq

/-- Per-connection session state held by `WebsocketHelper`
(audio_utils.py lines 112-117 and the conditionally-attached
`audio_buffer`).  The source field for the in-flight response accumulator
is spelled with an underscore after the first word; here it is named
`pending_response`. -/
structure Session where
  history : List Item
  latest_agent : String
  pending_response : String
  audio_buffer : List (List ℚ)
  deriving Repr, DecidableEq

/-- Role of the last element of `inputs`, as in
`data["inputs"][-1].get("role")`. -/
def lastRole (inputs : List Item) : Option String :=
  inputs.getLast?.bind Item.role

/-- is_sync_message (audio_utils.py lines 50-53). -/
def is_sync_message (data : InMessage) : Bool :=
  data.type == "history.update" &&
    (data.inputs.isEmpty || !(lastRole data.inputs == some "user"))

/-- is_new_text_message (audio_utils.py lines 56-59). -/
def is_new_text_message (data : InMessage) : Bool :=
  data.type == "history.update" &&
    (!data.inputs.isEmpty && lastRole data.inputs == some "user")

/-- is_new_audio_chunk (audio_utils.py lines 67-68). -/
def is_new_audio_chunk (data : InMessage) : Bool :=
  data.type == "input_audio_buffer.append"

/-- is_audio_complete (audio_utils.py lines 71-72). -/
def is_audio_complete (data : InMessage) : Bool :=
  data.type == "input_audio_buffer.commit"

/-- process_inputs (audio_utils.py lines 62-64): sets the connection's
history to all inputs but the last and returns the last input's content.
The `Option` result models the exception raised on an empty list. -/
def process_inputs (data : InMessage) (st : Session) : Session × Option String :=
  ({ st with history := data.inputs.dropLast },
   data.inputs.getLast?.map Item.content)

/-- extract_audio_chunk (audio_utils.py lines 75-79): base64 → int16 →
float32 samples divided by 32768.  A decode failure propagates (no local
try/except), modelled by `none`. -/
def extract_audio_chunk (b64decode : String → Option (List Int))
    (delta : String) : Option (List ℚ) :=
  (b64decode delta).map (fun samples => samples.map (fun n => (n : ℚ) / 32768))

/-- append_audio (audio_utils.py lines 287-300): decodes base64 to int16
and appends the raw int16 array to `audio_buffer`; the body is wrapped in
try/except, so a decode failure leaves the session unchanged.  Note the
source performs no division by 32768 here. -/
def append_audio (b64decode : String → Option (List Int))
    (st : Session) (delta : String) : Session :=
  match b64decode delta with
  | some samples =>
      { st with audio_buffer := st.audio_buffer ++ [samples.map (fun n => (n : ℚ))] }
  | none => st

/-- transform_data_to_events (audio_utils.py lines 28-37): wraps an audio
payload in a `response.audio.delta` frame with fixed placeholder
correlation fields. -/
def transform_data_to_events (audio : List ℚ) : Frame :=
  Frame.audioDelta audio 0 0 "" "" ""

/-- Events of the voice pipeline's output stream: audio events
(`VoiceStreamEventAudio`) and everything else. -/
inductive VEvent where
  | audio (data : List ℚ)
  | other
  deriving Repr, DecidableEq

/-- send_audio_chunk (audio_utils.py lines 209-213): emits a
`response.audio.delta` frame for an audio event, nothing otherwise. -/
def send_audio_chunk (e : VEvent) : List Frame :=
  match e with
  | VEvent.audio data => [transform_data_to_events data]
  | VEvent.other => []

/-- send_audio_done (audio_utils.py lines 215-216). -/
def send_audio_done : List Frame :=
  [Frame.audioDone]

/-- Result of running the external voice pipeline and consuming its output
stream: `events` are the events the stream yields before terminating, and
`fails` records whether the stream then raises instead of ending cleanly. -/
structure PipeResult where
  events : List VEvent
  fails : Bool

/-- commit_audio (audio_utils.py lines 302-359): on an empty (or absent)
buffer, return without invoking the pipeline; otherwise concatenate the
buffered chunks, run the pipeline once on the concatenation, emit a
`response.audio.delta` frame per audio event yielded, and clear the buffer
— the except branch also clears it, so the buffer is cleared whether or
not the pipeline run or the streaming loop raises.  The second component
is the emitted frames, the third the list of pipeline invocations. -/
def commit_audio (st : Session) (pipeline : List ℚ → PipeResult) :
    Session × List Frame × List (List ℚ) :=
  if st.audio_buffer.isEmpty then (st, [], [])
  else
    let input := st.audio_buffer.flatten
    let res := pipeline input
    let frames := (res.events.map send_audio_chunk).flatten
    ({ st with audio_buffer := [] }, frames, [input])

/-- generate_audio_response (audio_utils.py lines 248-285): on TTS success
emit one `response.audio.delta` frame then `audio.done`; on failure emit
`audio.done` alone (the except branch sends it "even if generation
failed"). -/
def generate_audio_response (tts : String → Option (List ℚ))
    (text : String) : List Frame :=
  match tts text with
  | some audio => transform_data_to_events audio :: send_audio_done
  | none => send_audio_done

/-- Events of the agent runner's stream as the turn driver distinguishes
them: `runItem` is a `RunItemStreamEvent` (`is_new_output_item`),
`textDelta` a raw-response `ResponseTextDeltaEvent` (`is_text_output`),
and `other` everything else (for instance `AgentUpdatedStreamEvent`). -/
inductive StreamEvent where
  | runItem (item : Item)
  | textDelta (delta : String)
  | other
  deriving Repr, DecidableEq

/-- What `Runner.run_streamed` hands back, as the turn driver consumes it:
the streamed `events`, and at exhaustion the `last_agent` and the
authoritative final transcript `final_items` (`output.to_input_list()`). -/
structure RunnerOutput where
  events : List StreamEvent
  last_agent : String
  final_items : List Item

/-- show_user_input (audio_utils.py lines 119-137): appends the user item
to history and emits a `history.updated` frame tagged `user.input`. -/
def show_user_input (st : Session) (user_input : String) : Session × Frame :=
  let h := st.history ++ [{ role := some "user", content := user_input }]
  ({ st with history := h },
   Frame.historyUpdated (some "user.input") h st.latest_agent false)

/-- stream_response (audio_utils.py lines 139-160): returns immediately
when `is_text` is set; otherwise appends the new tokens to the in-flight
response accumulator and emits a `history.updated` frame tagged
`response.text.delta` whose inputs are history plus a synthetic trailing
assistant item holding the accumulated text. -/
def stream_response (st : Session) (new_tokens : String)
    (is_text : Bool) : Session × List Frame :=
  if is_text then (st, [])
  else
    let p := st.pending_response ++ new_tokens
    ({ st with pending_response := p },
     [Frame.historyUpdated (some "response.text.delta")
        (st.history ++ [{ role := some "assistant", content := p }])
        st.latest_agent false])

/-- handle_new_item (audio_utils.py lines 162-180): a completed run item is
appended to history with a `response.input_item` frame; a text delta is
forwarded to `stream_response` (with `is_text` at its default `False`);
other events do nothing. -/
def handle_new_item (st : Session) (e : StreamEvent) : Session × List Frame :=
  match e with
  | StreamEvent.runItem item =>
      let h := st.history ++ [item]
      ({ st with history := h },
       [Frame.historyUpdated (some "response.input_item") h st.latest_agent false])
  | StreamEvent.textDelta d => stream_response st d false
  | StreamEvent.other => (st, [])

/-- text_output_complete (audio_utils.py lines 182-207): when done, clear
the response accumulator, adopt the runner's last agent and final
transcript, and emit a `history.updated` frame tagged `response.done`;
otherwise emit a sync-flagged frame with the current history. -/
def text_output_complete (st : Session) (output : RunnerOutput)
    (is_done : Bool) : Session × List Frame :=
  if is_done then
    ({ st with
        pending_response := ""
        latest_agent := output.last_agent
        history := output.final_items },
     [Frame.historyUpdated (some "response.done") output.final_items
        output.last_agent false])
  else
    (st, [Frame.historyUpdated none st.history st.latest_agent true])

/-- Event-consumption loop of `Workflow.run` (audio_utils.py lines
103-107): for each event call `handle_new_item`, and additionally yield the
delta of each text-output event to the generator's consumer.  Returns the
final state, the frames emitted, and the yielded tokens in order. -/
def run_events (st : Session) (events : List StreamEvent) :
    Session × List Frame × List String :=
  match events with
  | [] => (st, [], [])
  | e :: rest =>
      let r1 := handle_new_item st e
      let ys := match e with
        | StreamEvent.textDelta d => [d]
        | _ => []
      let r2 := run_events r1.1 rest
      (r2.1, r1.2 ++ r2.2.1, ys ++ r2.2.2)

/-- Workflow.run (audio_utils.py lines 92-109): acknowledge the user input,
invoke the runner on the updated history and current agent, consume the
event stream, and finalize with `text_output_complete(..., is_done=True)`.
The runner is abstracted as a function from (history, agent) to its
streamed output. -/
def Workflow.run (st : Session) (input_text : String)
    (runner : List Item → String → RunnerOutput) :
    Session × List Frame × List String :=
  let s1 := show_user_input st input_text
  let output := runner s1.1.history s1.1.latest_agent
  let r := run_events s1.1 output.events
  let fin := text_output_complete r.1 output true
  (fin.1, s1.2 :: r.2.1 ++ fin.2, r.2.2)

/-- New-text branch of websocket_endpoint (websocket_handler.py lines
147-150): run `process_inputs`, drive the workflow on the extracted user
input, and call `stream_response(token, is_text=True)` on every yielded
token.  In the source the generator and the consumer loop interleave;
since the `is_text=True` calls neither emit nor mutate, folding them after
the run is observationally identical. -/
def endpoint_handle_new_text (st : Session) (msg : InMessage)
    (runner : List Item → String → RunnerOutput) : Session × List Frame :=
  let pr := process_inputs msg st
  match pr.2 with
  | none => (pr.1, [])
  | some user_input =>
      let r := Workflow.run pr.1 user_input runner
      r.2.2.foldl
        (fun acc tok =>
          let sr := stream_response acc.1 tok true
          (sr.1, acc.2 ++ sr.2))
        (r.1, r.2.1)

/-- Decides whether a frame is a `history.updated` frame carrying the given
reason tag. -/
def reasonIs (r : String) (f : Frame) : Bool :=
  match f with
  | Frame.historyUpdated reason _ _ _ => reason == some r
  | _ => false

/-- Decides whether a runner event is a text-delta event. -/
def isTextDeltaEvent (e : StreamEvent) : Bool :=
  match e with
  | StreamEvent.textDelta _ => true
  | _ => false

/-- WebSocketManager's two per-connection tables (websocket_handler.py
lines 27-30), modelled as partial maps from client identifier; the
websocket object is abstracted to a `Nat` token. -/
structure WSManager where
  active_connections : String → Option Nat
  voice_pipelines : String → Option Session

/-- WebSocketManager.connect (websocket_handler.py lines 32-43): store the
accepted websocket under the client id and store a fresh helper under the
same id. -/
def ws_connect (m : WSManager) (ws : Nat) (client_id : String)
    (helper : Session) : WSManager :=
  { active_connections := fun k =>
      if k = client_id then some ws else m.active_connections k,
    voice_pipelines := fun k =>
      if k = client_id then some helper else m.voice_pipelines k }

/-- WebSocketManager.disconnect (websocket_handler.py lines 45-53): delete
the client id from each table if present. -/
def ws_disconnect (m : WSManager) (client_id : String) : WSManager :=
  { active_connections := fun k =>
      if (m.active_connections client_id).isSome then
        if k = client_id then none else m.active_connections k
      else m.active_connections k,
    voice_pipelines := fun k =>
      if (m.voice_pipelines client_id).isSome then
        if k = client_id then none else m.voice_pipelines k
      else m.voice_pipelines k }

/-- Consistency of the manager's two tables: a client id is a key of
`active_connections` exactly when it is a key of `voice_pipelines`. -/
def tables_consistent (m : WSManager) : Prop :=
  ∀ cid, (m.active_connections cid).isSome ↔ (m.voice_pipelines cid).isSome

/-- Application record with the fields `find_application_by_reference`
touches; `created_at` is an abstract timestamp. -/
structure AppDoc where
  user_id : String
  company : String
  role_title : String
  created_at : Nat
  deriving Repr, DecidableEq

/-- Lower-cases every character of a string, as a character list. -/
def lowerStr (s : String) : List Char :=
  s.toList.map Char.toLower

/-- Decides whether `pat` occurs contiguously inside `s`. -/
def containsSub (pat s : List Char) : Bool :=
  (List.range (s.length + 1)).any (fun i => (s.drop i).take pat.length == pat)

/-- Case-insensitive substring match, the model of the source's
case-insensitive regex filter (`{"$regex": ref, "$options": "i"}`,
database.py lines 161-173); on references free of regex metacharacters the
two coincide. -/
def matchCI (ref field : String) : Bool :=
  containsSub (lowerStr ref) (lowerStr field)

/-- Filter of the company-name query in `find_application_by_reference`. -/
def companyQuery (uid ref : String) (d : AppDoc) : Bool :=
  d.user_id == uid && matchCI ref d.company

/-- Filter of the role-title query in `find_application_by_reference`. -/
def roleQuery (uid ref : String) (d : AppDoc) : Bool :=
  d.user_id == uid && matchCI ref d.role_title

/-- Latest-created document of a list, modelling a MongoDB `find_one` with
`sort=[("created_at", -1)]` over the matching documents. -/
def pickLatest : List AppDoc → Option AppDoc
  | [] => none
  | d :: rest =>
      match pickLatest rest with
      | none => some d
      | some b => if b.created_at > d.created_at then some b else some d

/-- find_application_by_reference (database.py lines 156-175): query by
company name first, sorted newest first; only when that returns nothing,
query by role title the same way.  The collection is modelled as a list of
documents; `serialize_document` is the identity in this model. -/
def find_application_by_reference (db : List AppDoc) (ref uid : String) :
    Option AppDoc :=
  match pickLatest (db.filter (companyQuery uid ref)) with
  | some doc => some doc
  | none => pickLatest (db.filter (roleQuery uid ref))

/-- Fixed concrete session used by witnesses and counterexamples. -/
def sess0 : Session :=
  { history := [], latest_agent := "Job Tracking Agent",
    pending_response := "", audio_buffer := [] }

/-- Concrete session with a non-empty audio buffer. -/
def sessAudio : Session :=
  { history := [], latest_agent := "Job Tracking Agent",
    pending_response := "", audio_buffer := [[1], [2]] }

/-- Concrete base64 decoder: every chunk decodes to the single int16
sample 16384. -/
def decodeEx : String → Option (List Int) :=
  fun _ => some [16384]

/-- Concrete pipeline run: the output stream yields one audio event and one
non-audio event and then raises. -/
def pipeEx : List ℚ → PipeResult :=
  fun _ => { events := [VEvent.audio [0], VEvent.other], fails := true }

/-- Concrete inbound history.update frame whose last input is a user
item. -/
def msgNewText : InMessage :=
  { type := "history.update"
    inputs := [{ role := some "user", content := "Add Google Software Engineer" }]
    reset_agent := false
    delta := "" }

/-- Concrete agent runner: yields one text delta and one completed item,
keeps the agent, and reports the invocation history as final transcript. -/
def runnerEx : List Item → String → RunnerOutput :=
  fun h _ =>
    { events := [StreamEvent.textDelta "Sure",
        StreamEvent.runItem { role := some "assistant", content := "Sure" }]
      last_agent := "Job Tracking Agent"
      final_items := h }

/-- Concrete manager with empty tables. -/
def mgr0 : WSManager :=
  { active_connections := fun _ => none, voice_pipelines := fun _ => none }

/-- Concrete application records for the lookup witness. -/
def docOldGoogle : AppDoc :=
  { user_id := "u1", company := "Google", role_title := "Software Engineer",
    created_at := 1 }

/-- Newer record whose company also matches a google reference. -/
def docNewGoogle : AppDoc :=
  { user_id := "u1", company := "google cloud", role_title := "SRE",
    created_at := 5 }

/-- Newest record, matching only by role title for an engineer reference. -/
def docAcme : AppDoc :=
  { user_id := "u1", company := "Acme", role_title := "Engineer",
    created_at := 9 }

/-- Concrete collection for the lookup witness. -/
def dbEx : List AppDoc :=
  [docOldGoogle, docNewGoogle, docAcme]

/-- C4: on a history.update message the classifier tags sync exactly when
the inputs are empty or the last input's role is not user, tags new-text
exactly when the inputs are non-empty and the last input's role is user,
and the two tags are mutually exclusive and jointly exhaustive. -/
theorem classifier_sync_newtext_partition (data : InMessage)
    (h : data.type = "history.update") :
    (is_sync_message data = true ↔
      (data.inputs = [] ∨ lastRole data.inputs ≠ some "user"))
    ∧ (is_new_text_message data = true ↔
      (data.inputs ≠ [] ∧ lastRole data.inputs = some "user"))
    ∧ is_new_text_message data = !is_sync_message data := by
  refine ⟨?_, ?_, ?_⟩ <;>
    cases h1 : data.inputs.isEmpty <;>
      cases h2 : lastRole data.inputs == some "user" <;>
        simp_all [is_sync_message, is_new_text_message, h,
          List.isEmpty_iff, beq_iff_eq]

theorem classifier_sync_newtext_partition_witness :
    (is_sync_message msgNewText = true ↔
      (msgNewText.inputs = [] ∨ lastRole msgNewText.inputs ≠ some "user"))
    ∧ (is_new_text_message msgNewText = true ↔
      (msgNewText.inputs ≠ [] ∧ lastRole msgNewText.inputs = some "user"))
    ∧ is_new_text_message msgNewText = !is_sync_message msgNewText :=
  classifier_sync_newtext_partition msgNewText rfl

/-- C5: on non-empty inputs, process_inputs returns the last input's
content and assigns exactly the preceding inputs, order preserved, to the
session history. -/
theorem process_inputs_spec (data : InMessage) (st : Session)
    (h : data.inputs ≠ []) :
    (process_inputs data st).1.history = data.inputs.dropLast
    ∧ (process_inputs data st).1.history ++ [data.inputs.getLast h] = data.inputs
    ∧ (process_inputs data st).2 = some (data.inputs.getLast h).content := by
  refine ⟨rfl, ?_, ?_⟩
  · simpa [process_inputs] using List.dropLast_append_getLast h
  · simp [process_inputs, List.getLast?_eq_getLast _ h]

theorem process_inputs_spec_witness :
    (process_inputs msgNewText sess0).1.history = msgNewText.inputs.dropLast
    ∧ (process_inputs msgNewText sess0).1.history
        ++ [msgNewText.inputs.getLast (by decide)] = msgNewText.inputs
    ∧ (process_inputs msgNewText sess0).2
        = some (msgNewText.inputs.getLast (by decide)).content :=
  process_inputs_spec msgNewText sess0 (by decide)

/-- C2 counterexample: a chunk decoding to the int16 sample 16384 is
appended by append_audio as the raw value 16384, not as the normalized
16384 / 32768 = 1/2, and the appended value lies outside [-1, 1]. -/
theorem append_audio_unnormalized_cex :
    (append_audio decodeEx sess0 "chunk").audio_buffer = [[(16384 : ℚ)]]
    ∧ [[(16384 : ℚ)]] ≠ [[(16384 : ℚ) / 32768]]
    ∧ ¬ (16384 : ℚ) ≤ 1 := by
  refine ⟨?_, by norm_num, by norm_num⟩
  simp [append_audio, decodeEx, sess0]

/-- C2 (amended): append_audio decodes base64 to 16-bit signed PCM and
appends the raw integer samples to the buffer without normalization; when
decoding fails, the failure is caught and the session — including the
buffer — is unchanged.  The division by 32768 into [-1, 1] happens only in
extract_audio_chunk, the decoding used by the endpoint's audio-append
path. -/
theorem append_audio_amended (b64decode : String → Option (List Int))
    (st : Session) (delta : String) :
    (∀ samples, b64decode delta = some samples →
      append_audio b64decode st delta
        = { st with audio_buffer :=
              st.audio_buffer ++ [samples.map (fun n => (n : ℚ))] })
    ∧ (b64decode delta = none → append_audio b64decode st delta = st)
    ∧ (∀ samples, b64decode delta = some samples →
      extract_audio_chunk b64decode delta
        = some (samples.map (fun n => (n : ℚ) / 32768))) := by
  refine ⟨fun samples hs => ?_, fun hn => ?_, fun samples hs => ?_⟩ <;>
    simp [append_audio, extract_audio_chunk, *]

theorem append_audio_amended_witness :
    append_audio decodeEx sess0 "chunk"
      = { sess0 with audio_buffer := sess0.audio_buffer ++ [[(16384 : ℚ)]] }
    ∧ extract_audio_chunk decodeEx "chunk" = some [(16384 : ℚ) / 32768] := by
  have h := append_audio_amended decodeEx sess0 "chunk"
  exact ⟨by simpa using h.1 [16384] rfl, by simpa using h.2.2 [16384] rfl⟩

/-- C7 counterexample: emitting a response.text.delta frame through
stream_response is not a pure serialization of the session snapshot — the
in-flight response accumulator differs before and after the frame is
produced. -/
theorem stream_response_mutates_cex :
    (stream_response sess0 "hi" false).1.pending_response = "hi"
    ∧ (stream_response sess0 "hi" false).1 ≠ sess0
    ∧ (stream_response sess0 "hi" false).2.length = 1 := by
  decide

/-- C7 (amended): transform_data_to_events is pure serialization with the
fixed placeholder correlation fields, and a stream_response emission
produces exactly one frame and leaves history, active agent and audio
buffer unchanged — but it appends the new tokens to the in-flight response
accumulator, so the session state is not identical before and after the
frame is emitted. -/
theorem frame_emission_effects (st : Session) (tokens : String)
    (audio : List ℚ) :
    (stream_response st tokens false).1.history = st.history
    ∧ (stream_response st tokens false).1.latest_agent = st.latest_agent
    ∧ (stream_response st tokens false).1.audio_buffer = st.audio_buffer
    ∧ (stream_response st tokens false).1.pending_response
        = st.pending_response ++ tokens
    ∧ (stream_response st tokens false).2.length = 1
    ∧ transform_data_to_events audio = Frame.audioDelta audio 0 0 "" "" "" := by
  exact ⟨rfl, rfl, rfl, rfl, rfl, rfl⟩

/-- C6: committing an empty buffer invokes no pipeline and emits no frame;
committing a non-empty buffer invokes the pipeline exactly once, on the
concatenation of the buffered chunks in arrival order, and emits exactly
the audio-delta frames of the events the pipeline stream yields; and after
any commit — the pipeline's stream succeeding or raising — the buffer is
empty. -/
theorem commit_audio_semantics (st : Session)
    (pipeline : List ℚ → PipeResult) :
    (st.audio_buffer = [] → commit_audio st pipeline = (st, [], []))
    ∧ (st.audio_buffer ≠ [] →
        (commit_audio st pipeline).2.2 = [st.audio_buffer.flatten]
        ∧ (commit_audio st pipeline).2.1
            = ((pipeline st.audio_buffer.flatten).events.map send_audio_chunk).flatten)
    ∧ (commit_audio st pipeline).1.audio_buffer = [] := by
  refine ⟨fun h => ?_, fun h => ?_, ?_⟩
  · simp [commit_audio, h]
  · simp [commit_audio, List.isEmpty_iff, h]
  · by_cases h : st.audio_buffer = [] <;>
      simp [commit_audio, List.isEmpty_iff, h]

theorem commit_audio_semantics_witness :
    ((commit_audio sessAudio pipeEx).2.2 = [sessAudio.audio_buffer.flatten]
      ∧ (commit_audio sessAudio pipeEx).2.1
          = ((pipeEx sessAudio.audio_buffer.flatten).events.map send_audio_chunk).flatten)
    ∧ commit_audio sess0 pipeEx = (sess0, [], []) :=
  ⟨(commit_audio_semantics sessAudio pipeEx).2.1 (by decide),
   (commit_audio_semantics sess0 pipeEx).1 rfl⟩

/-- C1: evaluated on a non-empty buffer and a pipeline whose stream yields
one audio event and then raises, commit_audio emits the synthesized audio
as a response.audio.delta frame but never an audio.done frame — neither on
success nor on failure — although the sibling fallback path
generate_audio_response does terminate with audio.done even when its
generation fails. -/
theorem commit_audio_omits_audio_done :
    (commit_audio sessAudio pipeEx).2.1 = [Frame.audioDelta [0] 0 0 "" "" ""]
    ∧ Frame.audioDone ∉ (commit_audio sessAudio pipeEx).2.1
    ∧ Frame.audioDone ∈ generate_audio_response (fun _ => none) "text" := by
  refine ⟨?_, ?_, by simp [generate_audio_response, send_audio_done]⟩ <;>
    simp [commit_audio, sessAudio, pipeEx, send_audio_chunk,
      transform_data_to_events]

/-- C9: connect and disconnect keep the manager's two per-connection
tables consistent — a client identifier is a key of active_connections
exactly when it is a key of voice_pipelines. -/
theorem ws_manager_tables_consistent (m : WSManager) (ws : Nat)
    (cid : String) (helper : Session) (h : tables_consistent m) :
    tables_consistent (ws_connect m ws cid helper)
    ∧ tables_consistent (ws_disconnect m cid) := by
  refine ⟨fun k => ?_, fun k => ?_⟩
  · by_cases hk : k = cid <;> simp [ws_connect, hk, h k]
  · by_cases hk : k = cid
    · cases hm : m.active_connections cid <;>
        cases hp : m.voice_pipelines cid <;>
          simp [ws_disconnect, hk, hm, hp]
    · have hkk := h k
      simp only [ws_disconnect, tables_consistent]
      split_ifs <;> simp [hk, hkk]

theorem ws_manager_tables_consistent_witness :
    tables_consistent (ws_connect mgr0 0 "client_1" sess0)
    ∧ tables_consistent (ws_disconnect mgr0 "client_1") :=
  ws_manager_tables_consistent mgr0 0 "client_1" sess0
    (fun _ => by simp [mgr0])

theorem run_events_no_done_frame (st : Session)
    (events : List StreamEvent) :
    ((run_events st events).2.1).countP (reasonIs "response.done") = 0 := by
  induction events generalizing st with
  | nil => simp [run_events]
  | cons e rest ih =>
      cases e <;>
        simp [run_events, handle_new_item, stream_response, reasonIs,
          List.countP_append, List.countP_cons, ih]

theorem run_events_delta_frame_count (st : Session)
    (events : List StreamEvent) :
    ((run_events st events).2.1).countP (reasonIs "response.text.delta")
      = events.countP isTextDeltaEvent := by
  induction events generalizing st with
  | nil => simp [run_events]
  | cons e rest ih =>
      cases e <;>
        simp [run_events, handle_new_item, stream_response, reasonIs,
          isTextDeltaEvent, List.countP_append, List.countP_cons, ih]

/-- C3: after a turn driver run over any runner stream, the in-flight
response accumulator is empty, the history is the runner's reported final
transcript, the active agent is the runner's reported last agent, and the
emitted frames contain exactly one history.updated frame tagged
response.done. -/
theorem workflow_run_finalization (st : Session) (t : String)
    (runner : List Item → String → RunnerOutput) :
    (Workflow.run st t runner).1.pending_response = ""
    ∧ (Workflow.run st t runner).1.history
        = (runner (st.history ++ [{ role := some "user", content := t }])
            st.latest_agent).final_items
    ∧ (Workflow.run st t runner).1.latest_agent
        = (runner (st.history ++ [{ role := some "user", content := t }])
            st.latest_agent).last_agent
    ∧ ((Workflow.run st t runner).2.1).countP (reasonIs "response.done") = 1 := by
  refine ⟨rfl, rfl, rfl, ?_⟩
  simp [Workflow.run, show_user_input, text_output_complete, reasonIs,
    List.countP_cons, List.countP_append, run_events_no_done_frame]

theorem stream_text_foldl_id (toks : List String)
    (acc : Session × List Frame) :
    toks.foldl
      (fun acc tok =>
        let sr := stream_response acc.1 tok true
        (sr.1, acc.2 ++ sr.2)) acc = acc := by
  induction toks generalizing acc with
  | nil => rfl
  | cons t ts ih => simp [stream_response, ih]

/-- C10: stream_response with is_text set is a no-op — it neither emits a
frame nor changes the session — so the endpoint's new-text branch emits
exactly the turn driver's frames with no duplicates, and a run's frames
contain exactly one response.text.delta frame per text-delta event of the
runner stream. -/
theorem stream_text_noop_and_single_delta :
    (∀ (st : Session) (tok : String), stream_response st tok true = (st, []))
    ∧ (∀ (st : Session) (msg : InMessage)
        (runner : List Item → String → RunnerOutput) (last : Item),
        msg.inputs.getLast? = some last →
        endpoint_handle_new_text st msg runner
          = ((Workflow.run { st with history := msg.inputs.dropLast }
                last.content runner).1,
             (Workflow.run { st with history := msg.inputs.dropLast }
                last.content runner).2.1))
    ∧ (∀ (st : Session) (t : String)
        (runner : List Item → String → RunnerOutput),
        ((Workflow.run st t runner).2.1).countP (reasonIs "response.text.delta")
          = (runner (st.history ++ [{ role := some "user", content := t }])
              st.latest_agent).events.countP isTextDeltaEvent) := by
  refine ⟨fun st tok => rfl, fun st msg runner last h => ?_, fun st t runner => ?_⟩
  · simp [endpoint_handle_new_text, process_inputs, h, stream_text_foldl_id]
  · simp [Workflow.run, show_user_input, text_output_complete, reasonIs,
      List.countP_cons, List.countP_append, run_events_delta_frame_count]

theorem stream_text_noop_and_single_delta_witness :
    endpoint_handle_new_text sess0 msgNewText runnerEx
      = ((Workflow.run { sess0 with history := msgNewText.inputs.dropLast }
            "Add Google Software Engineer" runnerEx).1,
         (Workflow.run { sess0 with history := msgNewText.inputs.dropLast }
            "Add Google Software Engineer" runnerEx).2.1) :=
  stream_text_noop_and_single_delta.2.1 sess0 msgNewText runnerEx
    { role := some "user", content := "Add Google Software Engineer" } rfl

theorem pickLatest_eq_none (l : List AppDoc) :
    pickLatest l = none ↔ l = [] := by
  cases l with
  | nil => simp [pickLatest]
  | cons d rest =>
      cases h : pickLatest rest with
      | none => simp [pickLatest, h]
      | some b =>
          simp only [pickLatest, h]
          split_ifs <;> simp

theorem pickLatest_mem {l : List AppDoc} {d : AppDoc}
    (h : pickLatest l = some d) : d ∈ l := by
  induction l generalizing d with
  | nil => simp [pickLatest] at h
  | cons a rest ih =>
      cases hp : pickLatest rest with
      | none =>
          simp [pickLatest, hp] at h
          simp [h]
      | some b =>
          simp only [pickLatest, hp] at h
          split_ifs at h with hgt <;> rw [Option.some_inj] at h <;> subst h
          · exact List.mem_cons_of_mem _ (ih hp)
          · exact List.mem_cons_self _ _

theorem pickLatest_le {l : List AppDoc} {d : AppDoc}
    (h : pickLatest l = some d) :
    ∀ x ∈ l, x.created_at ≤ d.created_at := by
  induction l generalizing d with
  | nil => simp
  | cons a rest ih =>
      intro x hx
      cases hp : pickLatest rest with
      | none =>
          have hrest : rest = [] := (pickLatest_eq_none rest).1 hp
          subst hrest
          simp [pickLatest] at h
          subst h
          have hxa : x = a := by simpa using hx
          simp [hxa]
      | some b =>
          simp only [pickLatest, hp] at h
          rcases List.mem_cons.1 hx with rfl | hx'
          · split_ifs at h with hgt <;> rw [Option.some_inj] at h <;> subst h
            · exact le_of_lt hgt
            · exact le_refl _
          · have hb := ih hp x hx'
            split_ifs at h with hgt <;> rw [Option.some_inj] at h <;> subst h
            · exact hb
            · exact le_trans hb (le_of_not_lt hgt)

/-- C8: the lookup matches the reference case-insensitively as a substring
of the company name first; only when no company-name match exists does it
match against the role title; and in each case it returns a matching
record of maximal creation time, returning none exactly when nothing
matches. -/
theorem find_application_by_reference_spec (db : List AppDoc)
    (ref uid : String) :
    ((∃ c ∈ db, companyQuery uid ref c = true) →
      ∃ d, find_application_by_reference db ref uid = some d
        ∧ d ∈ db ∧ companyQuery uid ref d = true
        ∧ ∀ x ∈ db, companyQuery uid ref x = true →
            x.created_at ≤ d.created_at)
    ∧ ((∀ x ∈ db, companyQuery uid ref x = false) →
        (∃ c ∈ db, roleQuery uid ref c = true) →
      ∃ d, find_application_by_reference db ref uid = some d
        ∧ d ∈ db ∧ roleQuery uid ref d = true
        ∧ ∀ x ∈ db, roleQuery uid ref x = true →
            x.created_at ≤ d.created_at)
    ∧ ((∀ x ∈ db, companyQuery uid ref x = false) →
        (∀ x ∈ db, roleQuery uid ref x = false) →
      find_application_by_reference db ref uid = none) := by
  refine ⟨fun hc => ?_, fun hnc hr => ?_, fun hnc hnr => ?_⟩
  · obtain ⟨c, hcm, hcq⟩ := hc
    have hne : db.filter (companyQuery uid ref) ≠ [] := by
      intro hnil
      have := List.mem_filter.2 ⟨hcm, hcq⟩
      rw [hnil] at this
      simp at this
    obtain ⟨d, hd⟩ := Option.ne_none_iff_exists'.1
      (fun hn => hne ((pickLatest_eq_none _).1 hn))
    refine ⟨d, ?_, ?_, ?_, ?_⟩
    · simp [find_application_by_reference, hd]
    · exact (List.mem_filter.1 (pickLatest_mem hd)).1
    · exact (List.mem_filter.1 (pickLatest_mem hd)).2
    · intro x hx hq
      exact pickLatest_le hd x (List.mem_filter.2 ⟨hx, hq⟩)
  · have hcnil : db.filter (companyQuery uid ref) = [] :=
      List.filter_eq_nil_iff.2 (fun x hx => by simp [hnc x hx])
    obtain ⟨c, hcm, hcq⟩ := hr
    have hne : db.filter (roleQuery uid ref) ≠ [] := by
      intro hnil
      have := List.mem_filter.2 ⟨hcm, hcq⟩
      rw [hnil] at this
      simp at this
    obtain ⟨d, hd⟩ := Option.ne_none_iff_exists'.1
      (fun hn => hne ((pickLatest_eq_none _).1 hn))
    refine ⟨d, ?_, ?_, ?_, ?_⟩
    · simp [find_application_by_reference, hcnil, pickLatest, hd]
    · exact (List.mem_filter.1 (pickLatest_mem hd)).1
    · exact (List.mem_filter.1 (pickLatest_mem hd)).2
    · intro x hx hq
      exact pickLatest_le hd x (List.mem_filter.2 ⟨hx, hq⟩)
  · have hcnil : db.filter (companyQuery uid ref) = [] :=
      List.filter_eq_nil_iff.2 (fun x hx => by simp [hnc x hx])
    have hrnil : db.filter (roleQuery uid ref) = [] :=
      List.filter_eq_nil_iff.2 (fun x hx => by simp [hnr x hx])
    simp [find_application_by_reference, hcnil, hrnil, pickLatest]

theorem find_application_by_reference_spec_witness :
    ∃ d, find_application_by_reference dbEx "GOOGLE" "u1" = some d
      ∧ d ∈ dbEx ∧ companyQuery "u1" "GOOGLE" d = true
      ∧ ∀ x ∈ dbEx, companyQuery "u1" "GOOGLE" x = true →
          x.created_at ≤ d.created_at :=
  (find_application_by_reference_spec dbEx "GOOGLE" "u1").1
    ⟨docOldGoogle, by decide, by decide⟩

end VoiceAgent
